import Mathlib

/-!
Verification of the static blog generator `build.py` against its
natural-language specification.

The script is embedded shallowly: its pure string-building code becomes Lean
functions on `String`/`List Char`, the filesystem side effects become explicit
state passing over a small filesystem model, and the external collaborators
(front-matter parser, markdown renderer, slug generator, typography enhancer,
ISO-date parser) are passed in as function parameters, matching the spec's
treatment of them as black boxes.
-/

namespace Blog

/-! ## Generic sequence helpers

`seqStarts p s` decides whether the list `s` starts with the list `p`, and
`seqHas p s` decides whether `p` occurs contiguously somewhere inside `s`.
These model Python's `str.startswith` and the substring scan done by
`str.replace`. -/

def seqStarts {α : Type} [DecidableEq α] : List α → List α → Bool
  | [], _ => true
  | _ :: _, [] => false
  | p :: ps, c :: cs => if p = c then seqStarts ps cs else false

def seqHas {α : Type} [DecidableEq α] (p : List α) : List α → Bool
  | [] => seqStarts p []
  | c :: cs => seqStarts p (c :: cs) || seqHas p cs

theorem seqStarts_nil {α : Type} [DecidableEq α] (s : List α) :
    seqStarts ([] : List α) s = true := by
  cases s <;> rfl

theorem seqStarts_cons {α : Type} [DecidableEq α] (p c : α) (ps cs : List α) :
    seqStarts (p :: ps) (c :: cs) = if p = c then seqStarts ps cs else false := rfl

/-! ## The quote-restoration fix-up (line 185 of `build.py`)

`mistletoe.markdown(...).replace("&quot;", '"')` is modelled by
`restoreQuotesL` on character lists and `restoreQuotes` on strings.  Python's
`str.replace` scans left to right and replaces non-overlapping occurrences,
which is exactly the recursion below. -/

def quotEnt : List Char := ['&', 'q', 'u', 'o', 't', ';']

def restoreQuotesL : List Char → List Char
  | [] => []
  | c :: t =>
    if seqStarts quotEnt (c :: t) then '"' :: restoreQuotesL (t.drop 5)
    else c :: restoreQuotesL t
termination_by l => l.length
decreasing_by
  · simp only [List.length_cons, List.length_drop]
    omega
  · simp

def restoreQuotes (s : String) : String := ⟨restoreQuotesL s.data⟩

/-- If a `'"'`-free pattern is a prefix of the output of `restoreQuotesL`,
it was already a prefix of the input (the fix-up only ever emits `'"'` in
place of consumed text, so it cannot manufacture such a prefix). -/
theorem seqStarts_restoreQuotesL (s : List Char) :
    ∀ p : List Char, ('"' ∈ p → False) →
      seqStarts p (restoreQuotesL s) = true → seqStarts p s = true := by
  induction s using restoreQuotesL.induct with
  | case1 =>
    intro p _ h
    cases p with
    | nil => exact h
    | cons q qs => simp [restoreQuotesL, seqStarts] at h
  | case2 c t hm ih =>
    intro p hq h
    cases p with
    | nil => exact seqStarts_nil _
    | cons q qs =>
      rw [restoreQuotesL, if_pos hm] at h
      rw [seqStarts_cons] at h
      split at h
      · exact absurd (by simp [*]) hq
      · exact absurd h (by simp)
  | case3 c t hm ih =>
    intro p hq h
    cases p with
    | nil => exact seqStarts_nil _
    | cons q qs =>
      rw [restoreQuotesL, if_neg hm] at h
      rw [seqStarts_cons] at h ⊢
      split at h
      · simpa [*] using ih qs (fun hmem => hq (by simp [hmem])) h
      · exact absurd h (by simp)

/-- The output of the quote fix-up never contains the entity `&quot;`. -/
theorem seqHas_quotEnt_restoreQuotesL (s : List Char) :
    seqHas quotEnt (restoreQuotesL s) = false := by
  induction s using restoreQuotesL.induct with
  | case1 => rw [restoreQuotesL]; decide
  | case2 c t hm ih =>
    rw [restoreQuotesL, if_pos hm]
    simp only [seqHas, Bool.or_eq_false_iff]
    constructor
    · rfl
    · exact ih
  | case3 c t hm ih =>
    rw [restoreQuotesL, if_neg hm]
    simp only [seqHas, Bool.or_eq_false_iff]
    refine ⟨?_, ih⟩
    by_contra hne
    have hs : seqStarts quotEnt (c :: restoreQuotesL t) = true := by
      cases hx : seqStarts quotEnt (c :: restoreQuotesL t)
      · exact absurd hx hne
      · rfl
    have : seqStarts quotEnt (c :: t) = true := by
      have := seqStarts_restoreQuotesL (c :: t) quotEnt (by decide) ?_
      · exact this
      · rw [restoreQuotesL, if_neg hm]
        exact hs
    simp [this] at hm

/-- On input free of `&quot;` the fix-up is the identity. -/
theorem restoreQuotesL_of_no_ent (s : List Char)
    (h : seqHas quotEnt s = false) : restoreQuotesL s = s := by
  induction s with
  | nil => rw [restoreQuotesL]
  | cons c t ih =>
    simp only [seqHas, Bool.or_eq_false_iff] at h
    rw [restoreQuotesL, if_neg (by simp [h.1]), ih h.2]

/-- The fix-up is idempotent on character lists. -/
theorem restoreQuotesL_idem (s : List Char) :
    restoreQuotesL (restoreQuotesL s) = restoreQuotesL s :=
  restoreQuotesL_of_no_ent _ (seqHas_quotEnt_restoreQuotesL s)

/-- C6: the quote-restoration fix-up applied to the markdown output
(`.replace("&quot;", '"')`, line 185) is deterministic (it is a function) and
idempotent: `restore_quotes(restore_quotes(x)) == restore_quotes(x)` for every
string `x`. -/
theorem restoreQuotes_idempotent (x : String) :
    restoreQuotes (restoreQuotes x) = restoreQuotes x := by
  simp [restoreQuotes, restoreQuotesL_idem]

/-! ## Dates

`datetime.date` values: totally ordered lexicographically by
(year, month, day); `isoformat()` and `strftime("%B %d, %Y")` are modelled by
`Date.iso` and `Date.long`. -/

structure Date where
  year : Nat
  month : Nat
  day : Nat
deriving DecidableEq, Repr

/-- `datetime.date` comparison: lexicographic on (year, month, day). -/
def Date.leB (a b : Date) : Bool :=
  a.year < b.year ||
    (a.year = b.year &&
      (a.month < b.month || (a.month = b.month && a.day ≤ b.day)))

theorem Date.leB_trans (a b c : Date) (hab : Date.leB a b = true)
    (hbc : Date.leB b c = true) : Date.leB a c = true := by
  simp only [Date.leB, Bool.or_eq_true, Bool.and_eq_true, decide_eq_true_eq]
    at hab hbc ⊢
  omega

theorem Date.leB_total (a b : Date) :
    (Date.leB a b || Date.leB b a) = true := by
  simp only [Date.leB, Bool.or_eq_true, Bool.and_eq_true, decide_eq_true_eq]
  omega

def pad2 (n : Nat) : String := if n < 10 then "0" ++ toString n else toString n

def pad4 (n : Nat) : String :=
  if n < 10 then "000" ++ toString n
  else if n < 100 then "00" ++ toString n
  else if n < 1000 then "0" ++ toString n
  else toString n

/-- `date.isoformat()`: `YYYY-MM-DD`. -/
def Date.iso (d : Date) : String :=
  pad4 d.year ++ "-" ++ pad2 d.month ++ "-" ++ pad2 d.day

def monthName : Nat → String
  | 1 => "January"
  | 2 => "February"
  | 3 => "March"
  | 4 => "April"
  | 5 => "May"
  | 6 => "June"
  | 7 => "July"
  | 8 => "August"
  | 9 => "September"
  | 10 => "October"
  | 11 => "November"
  | 12 => "December"
  | _ => ""

/-- `date.strftime("%B %d, %Y")`: e.g. `January 05, 2020`. -/
def Date.long (d : Date) : String :=
  monthName d.month ++ " " ++ pad2 d.day ++ ", " ++ toString d.year

/-! ## The Post record (lines 148-161 of `build.py`)

`slug` and `url` are computed properties delegating to the black-box
`slugify` collaborator, so they take it as a parameter here. -/

structure Post where
  title : String
  description : Option String
  date : Date
  html : String
deriving DecidableEq, Repr

def Post.slug (sl : String → String) (p : Post) : String := sl p.title

def Post.url (sl : String → String) (p : Post) : String :=
  "/posts/" ++ Post.slug sl p

/-! ## Sorting (line 190 of `build.py`)

`posts = list(sorted(posts, key=attrgetter("date"), reverse=True))`: a stable
sort, descending by date. -/

def sortPosts (ps : List Post) : List Post :=
  ps.mergeSort (fun a b => Date.leB b.date a.date)

/-- C2: after loading, the build sorts the posts by date in descending order
(newest first): in the sorted list rendered on the home page, every pair of
adjacent posts `a, b` satisfies `a.date >= b.date`. -/
theorem sortPosts_descending (ps : List Post) :
    List.Chain' (fun a b => Date.leB b.date a.date = true) (sortPosts ps) := by
  have h := @List.sorted_mergeSort Post
    (fun a b : Post => Date.leB b.date a.date)
    (fun a b c hab hbc => Date.leB_trans c.date b.date a.date hbc hab)
    (fun a b => Date.leB_total b.date a.date) ps
  exact List.Pairwise.chain' h

/-! ## Module-level configuration constants (lines 19-27 of `build.py`) -/

def BLOG_TITLE : String := "the blog"

def DEFAULT_DESCRIPTION : String := "A cool and nice programming blog"

def MY_NAME : String := "Patrick Gingras"

def EMAIL : String := "p.7g@icloud.com"

def LANG : String := "en"

def HEADER_LINKS : List (String × String) :=
  [("github", "https://github.com/p7g"),
   ("linkedin", "https://linkedin.com/in/pat775")]

/-! ## The yattag templating collaborator

yattag provides two insertion modes: `text`/`line` escape their argument with
`html_escape` (chained single-character replaces of `&`, `<`, `>`, modelled
character-wise below, which is equivalent since the replacements introduce no
further matches), attribute values are escaped with `attr_escape`
(`&`, `<`, `"`), and `asis` inserts its argument verbatim. -/

def apos : String := String.singleton (Char.ofNat 39)

def escChar (c : Char) : String :=
  if c = '&' then "&amp;"
  else if c = '<' then "&lt;"
  else if c = '>' then "&gt;"
  else String.singleton c

def htmlEscape (s : String) : String := String.join (s.data.map escChar)

def attrChar (c : Char) : String :=
  if c = '&' then "&amp;"
  else if c = '<' then "&lt;"
  else if c = '"' then "&quot;"
  else String.singleton c

def attrEscape (s : String) : String := String.join (s.data.map attrChar)

/-! ## Renderer (lines 30-145 of `build.py`)

Each `with tag(...)` block becomes an open-tag string, the nested content, and
a close-tag string; `doc.stag` becomes a self-closing tag; `line(t, c, ...)`
becomes `<t ...>htmlEscape c</t>`.  Attribute values written as Python string
literals pass through `attr_escape` unchanged and are kept inline. -/

def FONTS_HREF : String :=
  "https://fonts.googleapis.com/css?family=IBM+Plex+Serif:400,400i,700,700i|Faustina:400,400i,700,700i|Inconsolata&display=block"

/-- `deferred_stylesheet` (lines 30-39): a preload-then-activate link plus a
no-script fallback. -/
def deferredStylesheet (href : String) : String :=
  "<link rel=\"preload\" as=\"style\" href=\"" ++ attrEscape href ++
      "\" onload=\"this.onload=null; this.rel=" ++ apos ++ "stylesheet" ++
      apos ++ ";\" />" ++
    "<noscript><link rel=\"stylesheet\" href=\"" ++ attrEscape href ++
      "\" /></noscript>"

/-- `header` (lines 42-55): blog title home link, author name, outbound
profile links, then a rule. -/
def headerHtml : String :=
  "<header class=\"header\">" ++
    "<a href=\"/\" title=\"home\">" ++
      "<h1 class=\"header__title\">" ++ htmlEscape BLOG_TITLE ++ "</h1>" ++
    "</a>" ++
    "<p class=\"header__name\">" ++ htmlEscape MY_NAME ++ "</p>" ++
    "<section class=\"header__links\">" ++
      String.join (HEADER_LINKS.map (fun lk =>
        "<a href=\"" ++ attrEscape lk.2 ++ "\" class=\"header__links__link\">" ++
          htmlEscape lk.1 ++ "</a> ")) ++
    "</section>" ++
    "<hr />" ++
  "</header>"

/-- Line 77: `f"{title} | {BLOG_TITLE}" if title else BLOG_TITLE`.  Python
truthiness makes both `None` and the empty string fall back to the bare blog
title. -/
def docTitle : Option String → String
  | some t => if t = "" then BLOG_TITLE else t ++ " | " ++ BLOG_TITLE
  | none => BLOG_TITLE

/-- Python `description or DEFAULT_DESCRIPTION` (line 69): `None` and `""`
are falsy. -/
def pyOr : Option String → String → String
  | some s, d => if s = "" then d else s
  | none, d => d

def metaDescTag (descr : Option String) : String :=
  "<meta name=\"description\" content=\"" ++
    attrEscape (pyOr descr DEFAULT_DESCRIPTION) ++ "\" />"

def titleTag (title : Option String) : String :=
  "<title>" ++ htmlEscape (docTitle title) ++ "</title>"

/-- `base_page` (lines 58-90): the shared document shell.  `styles` is the
content of the `styles.css` file read at line 87. -/
def basePage (styles : String) (title descr : Option String)
    (body : String) : String :=
  "<!DOCTYPE html>" ++
  "<html lang=\"" ++ attrEscape LANG ++ "\">" ++
  "<head>" ++
  "<meta charset=\"utf-8\" />" ++
  "<meta name=\"viewport\" content=\"width=device-width, initial-scale=1\" />" ++
  metaDescTag descr ++
  "<link rel=\"shortcut icon\" type=\"image/x-icon\" href=\"/static/favicon.ico\" />" ++
  titleTag title ++
  deferredStylesheet FONTS_HREF ++
  "<style>" ++ htmlEscape styles ++ "</style>" ++
  "</head>" ++
  "<body>" ++ body ++ "</body>" ++
  "</html>"

/-- One entry of the home-page post list (lines 101-116).  The title and the
description go through the black-box `typogrify` collaborator `tg` and are
inserted with `doc.asis`, i.e. without escaping. -/
def homePostEntry (tg sl : String → String) (p : Post) : String :=
  "<article class=\"main__post\">" ++
    "<a href=\"" ++ attrEscape (Post.url sl p) ++ "\">" ++
      "<h3 class=\"main__post__title\">" ++ tg p.title ++ "</h3>" ++
    "</a>" ++
    "<small class=\"main__post__date\">" ++
      "<time datetime=\"" ++ attrEscape p.date.iso ++ "\">" ++
        htmlEscape p.date.long ++ "</time>" ++
    "</small>" ++
    (match p.description with
      | some d => "<p class=\"main__post__description\">" ++ tg d ++ "</p>"
      | none => "") ++
  "</article>"

/-- `home_page` (lines 93-118). -/
def homePage (styles : String) (tg sl : String → String)
    (posts : List Post) : String :=
  basePage styles none none
    (headerHtml ++
      "<main class=\"main\">" ++
        "<section class=\"main__post_list\">" ++
          String.join (posts.map (homePostEntry tg sl)) ++
        "</section>" ++
      "</main>")

/-- `post_page` (lines 121-145).  Title, body (and on the home page the
description) are inserted with `doc.asis` after `typogrify`; the date line,
the footer text and the email link go through the escaping insertion mode. -/
def postPage (styles : String) (tg : String → String) (p : Post) : String :=
  basePage styles (some p.title) p.description
    (headerHtml ++
      "<main class=\"main\">" ++
        "<article class=\"post\">" ++
          "<header class=\"post__header\">" ++
            "<h2 class=\"post__heading\">" ++ tg p.title ++ "</h2>" ++
            "<time datetime=\"" ++ attrEscape p.date.iso ++
              "\" class=\"post__heading__time\">" ++ htmlEscape p.date.long ++
              "</time>" ++
          "</header>" ++
          "<main class=\"post__main\">" ++ tg p.html ++ "</main>" ++
        "</article>" ++
      "</main>" ++
      "<footer class=\"post__footer\">" ++
        "<hr />" ++
        htmlEscape ("Tell me I" ++ apos ++ "m wrong: ") ++
        "<a href=\"" ++ attrEscape ("mailto:" ++ EMAIL) ++
          "\" class=\"post__footer__email\">" ++ htmlEscape EMAIL ++ "</a>" ++
      "</footer>")

/-! ## Substring occurrence -/

/-- `hasSeg x s`: the string `x` occurs contiguously inside `s`. -/
def hasSeg (x s : String) : Prop :=
  ∃ u v : List Char, s.data = u ++ x.data ++ v

theorem hasSeg_self (x : String) : hasSeg x x := ⟨[], [], by simp⟩

theorem hasSeg_app_left {x s : String} (t : String) (h : hasSeg x s) :
    hasSeg x (t ++ s) := by
  obtain ⟨u, v, hv⟩ := h
  exact ⟨t.data ++ u, v, by simp [String.data_append, hv]⟩

theorem hasSeg_app_right {x s : String} (t : String) (h : hasSeg x s) :
    hasSeg x (s ++ t) := by
  obtain ⟨u, v, hv⟩ := h
  exact ⟨u, v ++ t.data, by simp [String.data_append, hv]⟩

theorem seqStarts_iff {α : Type} [DecidableEq α] (p : List α) :
    ∀ s : List α, seqStarts p s = true ↔ ∃ v, s = p ++ v := by
  induction p with
  | nil => intro s; simp [seqStarts_nil]
  | cons a ps ih =>
    intro s
    cases s with
    | nil => simp [seqStarts]
    | cons c cs =>
      rw [seqStarts_cons]
      constructor
      · intro h
        split at h
        · obtain ⟨v, hv⟩ := (ih cs).1 h
          exact ⟨v, by simp [*]⟩
        · simp at h
      · rintro ⟨v, hv⟩
        simp only [List.cons_append, List.cons.injEq] at hv
        rw [if_pos hv.1.symm]
        exact (ih cs).2 ⟨v, hv.2⟩

theorem seqHas_iff {α : Type} [DecidableEq α] (p : List α) :
    ∀ s : List α, seqHas p s = true ↔ ∃ u v, s = u ++ p ++ v := by
  intro s
  induction s with
  | nil =>
    simp only [seqHas]
    rw [seqStarts_iff]
    constructor
    · rintro ⟨v, hv⟩
      exact ⟨[], v, by simpa using hv⟩
    · rintro ⟨u, v, hv⟩
      have h := hv.symm
      simp only [List.append_eq_nil, List.append_assoc] at h
      exact ⟨v, by simp [h.1, h.2.1, h.2.2]⟩
  | cons c cs ih =>
    simp only [seqHas, Bool.or_eq_true]
    constructor
    · rintro (h | h)
      · obtain ⟨v, hv⟩ := (seqStarts_iff p _).1 h
        exact ⟨[], v, by simpa using hv⟩
      · obtain ⟨u, v, hv⟩ := ih.1 h
        exact ⟨c :: u, v, by simp [hv]⟩
    · rintro ⟨u, v, hv⟩
      cases u with
      | nil =>
        left
        exact (seqStarts_iff p _).2 ⟨v, by simpa using hv⟩
      | cons d u2 =>
        right
        simp only [List.cons_append, List.cons.injEq] at hv
        exact ih.2 ⟨u2, v, hv.2⟩

theorem hasSeg_iff_seqHas (x s : String) :
    hasSeg x s ↔ seqHas x.data s.data = true := by
  rw [seqHas_iff]
  exact Iff.rfl

/-- `headSeg x s`: the string `x` is a prefix of `s`. -/
def headSeg (x s : String) : Prop :=
  ∃ v : List Char, s.data = x.data ++ v

theorem headSeg_app (x t : String) : headSeg x (x ++ t) :=
  ⟨t.data, by simp [String.data_append]⟩

theorem headSeg_cons (c : String) {x s : String} (h : headSeg x s) :
    headSeg (c ++ x) (c ++ s) := by
  obtain ⟨v, hv⟩ := h
  exact ⟨v, by simp [String.data_append, hv]⟩

theorem hasSeg_of_headSeg {x s : String} (h : headSeg x s) : hasSeg x s := by
  obtain ⟨v, hv⟩ := h
  exact ⟨[], v, by simpa using hv⟩

/-- C9: every page whose `description` argument is `None` — each post page of
a post with no description, and the home page, which always passes none —
renders a `<head>` meta description whose content is the fixed default
`"A cool and nice programming blog"` (line 69: `description or
DEFAULT_DESCRIPTION`), never an empty or missing one. -/
theorem meta_description_fallback (styles : String) (tg sl : String → String)
    (p : Post) (posts : List Post) (hp : p.description = none) :
    metaDescTag none =
      "<meta name=\"description\" content=\"A cool and nice programming blog\" />" ∧
    hasSeg (metaDescTag none) (postPage styles tg p) ∧
    hasSeg (metaDescTag none) (homePage styles tg sl posts) := by
  refine ⟨by decide, ?_, ?_⟩
  · simp only [postPage, basePage, hp, String.append_assoc]
    iterate 7 apply hasSeg_app_left
    exact hasSeg_of_headSeg (headSeg_app _ _)
  · simp only [homePage, basePage, String.append_assoc]
    iterate 7 apply hasSeg_app_left
    exact hasSeg_of_headSeg (headSeg_app _ _)

/-- Closed instance of `meta_description_fallback`. -/
theorem meta_description_fallback_witness :
    metaDescTag none =
      "<meta name=\"description\" content=\"A cool and nice programming blog\" />" ∧
    hasSeg (metaDescTag none)
      (postPage "" id ⟨"t", none, ⟨2020, 1, 5⟩, "b"⟩) ∧
    hasSeg (metaDescTag none) (homePage "" id id []) :=
  meta_description_fallback "" id id ⟨"t", none, ⟨2020, 1, 5⟩, "b"⟩ [] rfl

set_option maxRecDepth 40000 in
/-- C7, counterexample: a post whose title is the empty string is "given" to
`base_page`, yet Python truthiness (`if title` at line 77) drops the
`"{page title} | {blog title}"` composition: the rendered page's `<title>` is
the bare blog title and the composed form appears nowhere. -/
theorem doc_title_empty_cex :
    hasSeg "<title>the blog</title>"
      (postPage "" id ⟨"", none, ⟨2020, 1, 5⟩, "b"⟩) ∧
    ¬ hasSeg " | the blog"
      (postPage "" id ⟨"", none, ⟨2020, 1, 5⟩, "b"⟩) := by
  simp only [hasSeg_iff_seqHas]
  decide

/-- C7, amended: the document `<title>` is
`"{page title} | {blog title}"` whenever the page title given is non-empty
(post pages pass the post's title), and is the bare blog title when no page
title is given (the home page) — or when the given title is the empty string,
since line 77 tests Python truthiness rather than presence. -/
theorem doc_title_composition (styles : String) (tg sl : String → String)
    (p : Post) (posts : List Post) (h : p.title ≠ "") :
    titleTag (some p.title) =
      "<title>" ++ htmlEscape (p.title ++ " | " ++ BLOG_TITLE) ++ "</title>" ∧
    hasSeg (titleTag (some p.title)) (postPage styles tg p) ∧
    titleTag none = "<title>the blog</title>" ∧
    hasSeg (titleTag none) (homePage styles tg sl posts) := by
  refine ⟨by simp [titleTag, docTitle, h], ?_, by decide, ?_⟩
  · simp only [postPage, basePage, String.append_assoc]
    iterate 9 apply hasSeg_app_left
    exact hasSeg_of_headSeg (headSeg_app _ _)
  · simp only [homePage, basePage, String.append_assoc]
    iterate 9 apply hasSeg_app_left
    exact hasSeg_of_headSeg (headSeg_app _ _)

/-- Closed instance of `doc_title_composition`. -/
theorem doc_title_composition_witness :
    titleTag (some "t") =
      "<title>" ++ htmlEscape ("t" ++ " | " ++ BLOG_TITLE) ++ "</title>" ∧
    hasSeg (titleTag (some "t")) (postPage "" id ⟨"t", none, ⟨2020, 1, 5⟩, "b"⟩) ∧
    titleTag none = "<title>the blog</title>" ∧
    hasSeg (titleTag none) (homePage "" id id []) :=
  doc_title_composition "" id id ⟨"t", none, ⟨2020, 1, 5⟩, "b"⟩ [] (by decide)

set_option maxRecDepth 40000 in
/-- C3, counterexample: the post title is NOT inserted as escaped plain text.
With the typography collaborator instantiated as the identity and a title
containing `<`, the home page contains the raw `<` inside the title element
and contains no escaped form `a&lt;b` anywhere. -/
theorem title_escaping_cex :
    hasSeg "<h3 class=\"main__post__title\">a<b</h3>"
      (homePage "" id (fun _ => "a-b") [⟨"a<b", none, ⟨2020, 1, 5⟩, "x"⟩]) ∧
    ¬ hasSeg "a&lt;b"
      (homePage "" id (fun _ => "a-b") [⟨"a<b", none, ⟨2020, 1, 5⟩, "x"⟩]) := by
  simp only [hasSeg_iff_seqHas]
  decide

/-- C3, amended: the renderer has two insertion modes, but the callers insert
the post title and description (after `typogrify`) with the raw-markup mode
`doc.asis`, exactly like the body — not as escaped plain text.  The
escaped-text mode is used for the document `<title>` and the formatted
dates. -/
theorem insertion_modes (styles : String) (tg sl : String → String)
    (p : Post) (d : String) (hd : p.description = some d) :
    hasSeg ("<h2 class=\"post__heading\">" ++ tg p.title ++ "</h2>")
      (postPage styles tg p) ∧
    hasSeg ("<main class=\"post__main\">" ++ tg p.html ++ "</main>")
      (postPage styles tg p) ∧
    hasSeg ("<title>" ++ htmlEscape (docTitle (some p.title)) ++ "</title>")
      (postPage styles tg p) ∧
    hasSeg (htmlEscape p.date.long) (postPage styles tg p) ∧
    hasSeg ("<h3 class=\"main__post__title\">" ++ tg p.title ++ "</h3>")
      (homePage styles tg sl [p]) ∧
    hasSeg ("<p class=\"main__post__description\">" ++ tg d ++ "</p>")
      (homePage styles tg sl [p]) := by
  refine ⟨?_, ?_, ?_, ?_, ?_, ?_⟩
  · simp only [postPage, basePage, titleTag, String.append_assoc]
    iterate 22 apply hasSeg_app_left
    exact hasSeg_of_headSeg (headSeg_cons _ (headSeg_cons _ (headSeg_app _ _)))
  · simp only [postPage, basePage, titleTag, String.append_assoc]
    iterate 31 apply hasSeg_app_left
    exact hasSeg_of_headSeg (headSeg_cons _ (headSeg_cons _ (headSeg_app _ _)))
  · simp only [postPage, basePage, titleTag, String.append_assoc]
    iterate 9 apply hasSeg_app_left
    exact hasSeg_of_headSeg (headSeg_cons _ (headSeg_cons _ (headSeg_app _ _)))
  · simp only [postPage, basePage, titleTag, String.append_assoc]
    iterate 28 apply hasSeg_app_left
    exact hasSeg_of_headSeg (headSeg_app _ _)
  · simp only [homePage, basePage, titleTag, homePostEntry, hd,
      String.join, List.map, List.foldl, String.append_assoc]
    iterate 26 apply hasSeg_app_left
    exact hasSeg_of_headSeg (headSeg_cons _ (headSeg_cons _ (headSeg_app _ _)))
  · simp only [homePage, basePage, titleTag, homePostEntry, hd,
      String.join, List.map, List.foldl, String.append_assoc]
    iterate 37 apply hasSeg_app_left
    exact hasSeg_of_headSeg (headSeg_cons _ (headSeg_cons _ (headSeg_app _ _)))

/-- Closed instance of `insertion_modes`. -/
theorem insertion_modes_witness :
    hasSeg ("<h2 class=\"post__heading\">" ++ id "t" ++ "</h2>")
      (postPage "" id ⟨"t", some "d", ⟨2020, 1, 5⟩, "b"⟩) ∧
    hasSeg ("<main class=\"post__main\">" ++ id "b" ++ "</main>")
      (postPage "" id ⟨"t", some "d", ⟨2020, 1, 5⟩, "b"⟩) ∧
    hasSeg ("<title>" ++ htmlEscape (docTitle (some "t")) ++ "</title>")
      (postPage "" id ⟨"t", some "d", ⟨2020, 1, 5⟩, "b"⟩) ∧
    hasSeg (htmlEscape (Date.long ⟨2020, 1, 5⟩))
      (postPage "" id ⟨"t", some "d", ⟨2020, 1, 5⟩, "b"⟩) ∧
    hasSeg ("<h3 class=\"main__post__title\">" ++ id "t" ++ "</h3>")
      (homePage "" id id [⟨"t", some "d", ⟨2020, 1, 5⟩, "b"⟩]) ∧
    hasSeg ("<p class=\"main__post__description\">" ++ id "d" ++ "</p>")
      (homePage "" id id [⟨"t", some "d", ⟨2020, 1, 5⟩, "b"⟩]) :=
  insertion_modes "" id id ⟨"t", some "d", ⟨2020, 1, 5⟩, "b"⟩ "d" rfl

/-! ## Post loader (lines 164-187 of `build.py`)

`frontmatter.loads` is a black box returning a metadata mapping and the body
text; YAML gives either strings or already-structured date values, modelled by
`MetaVal`.  `post_raw["k"]` raises `KeyError` on a missing key (the error kind
the spec calls `MissingFieldError`), and `dt.date.fromisoformat` raises
`ValueError` on a malformed string (the spec's `InvalidDateError`); the
ISO-parsing collaborator `iso` is a parameter that may fail. -/

inductive MetaVal
  | str (s : String)
  | date (d : Date)
deriving DecidableEq, Repr

structure Frontmatter where
  meta : List (String × MetaVal)
  content : String
deriving DecidableEq, Repr

def lookupMeta (m : List (String × MetaVal)) (k : String) : Option MetaVal :=
  (m.find? (fun kv => kv.1 == k)).map (fun kv => kv.2)

/-- Python holds metadata values as-is; where a value is used as text, a
structured date renders as its ISO form. -/
def metaAsString : MetaVal → String
  | .str s => s
  | .date d => d.iso

inductive LoadError
  | parseError (msg : String)
  | keyError (key : String)
  | valueError (msg : String)
deriving DecidableEq, Repr

/-- Lines 171-187 for a single file: parse the front matter, fetch `date`
(line 176, raising `KeyError` when absent) and convert an ISO string
(lines 177-178, raising `ValueError` when malformed), then fetch `title`
(raising `KeyError` when absent), `description` (via `.get`, optional), and
convert the body with the markdown collaborator plus the quote fix-up. -/
def loadPost (fm : String → Except String Frontmatter) (md : String → String)
    (iso : String → Except String Date) (text : String) :
    Except LoadError Post := do
  let raw ← (fm text).mapError LoadError.parseError
  let date ← match lookupMeta raw.meta "date" with
    | none => Except.error (LoadError.keyError "date")
    | some (.str s) => (iso s).mapError LoadError.valueError
    | some (.date d) => Except.ok d
  let title ← match lookupMeta raw.meta "title" with
    | none => Except.error (LoadError.keyError "title")
    | some v => Except.ok (metaAsString v)
  let descr := (lookupMeta raw.meta "description").map metaAsString
  Except.ok ⟨title, descr, date, restoreQuotes (md raw.content)⟩

/-- One entry of `os.scandir("posts")`. -/
structure DirEntry where
  name : String
  isFile : Bool
  text : String
deriving DecidableEq, Repr

/-- Line 168: `if not post_file.is_file() or post_file.name.startswith("."):
continue`. -/
def keepEntry (e : DirEntry) : Bool :=
  e.isFile && !(seqStarts ['.'] e.name.data)

/-- The scandir loop (lines 166-187): skip non-files and dotfiles, load each
remaining file in order, aborting on the first error. -/
def loadPosts (fm : String → Except String Frontmatter) (md : String → String)
    (iso : String → Except String Date) :
    List DirEntry → Except LoadError (List Post)
  | [] => Except.ok []
  | e :: rest =>
    if keepEntry e then do
      let p ← loadPost fm md iso e.text
      let ps ← loadPosts fm md iso rest
      Except.ok (p :: ps)
    else loadPosts fm md iso rest

/-- The loader is exactly a fail-fast traversal of the kept entries. -/
theorem loadPosts_eq_mapM (fm : String → Except String Frontmatter)
    (md : String → String) (iso : String → Except String Date)
    (entries : List DirEntry) :
    loadPosts fm md iso entries
      = (entries.filter keepEntry).mapM (fun e => loadPost fm md iso e.text) := by
  induction entries with
  | nil => simp [loadPosts, List.filter_nil, List.mapM_nil]; rfl
  | cons e rest ih =>
    by_cases h : keepEntry e
    · rw [loadPosts, if_pos h, List.filter_cons, if_pos h, List.mapM_cons, ih]
      rfl
    · rw [loadPosts, if_neg h, List.filter_cons, if_neg h, ih]

theorem mapM_except_ok_length {α β ε : Type} (f : α → Except ε β) (l : List α)
    (ps : List β) (h : l.mapM f = Except.ok ps) : ps.length = l.length := by
  induction l generalizing ps with
  | nil =>
    rw [List.mapM_nil] at h
    cases h
    rfl
  | cons a t ih =>
    rw [List.mapM_cons] at h
    cases hfa : f a with
    | error e =>
      rw [hfa] at h
      exact absurd h (by simp [Bind.bind, Except.bind])
    | ok b =>
      rw [hfa] at h
      cases hmt : t.mapM f with
      | error e =>
        rw [hmt] at h
        exact absurd h (by simp [Bind.bind, Except.bind])
      | ok bs =>
        rw [hmt] at h
        simp only [Bind.bind, Except.bind, pure, Except.pure] at h
        cases h
        simp [ih bs hmt]

/-- C8: enumerating the source directory, the loader skips every entry that
is not a regular file and every dotfile, and (fail-fast over the rest) yields
exactly one `Post` per remaining file, in enumeration order. -/
theorem loadPosts_skips_and_maps (fm : String → Except String Frontmatter)
    (md : String → String) (iso : String → Except String Date)
    (entries : List DirEntry) (ps : List Post) :
    loadPosts fm md iso entries
        = (entries.filter keepEntry).mapM (fun e => loadPost fm md iso e.text) ∧
      (loadPosts fm md iso entries = Except.ok ps →
        ps.length = (entries.filter keepEntry).length) := by
  refine ⟨loadPosts_eq_mapM fm md iso entries, fun h => ?_⟩
  rw [loadPosts_eq_mapM fm md iso entries] at h
  exact mapM_except_ok_length _ _ ps h

/-- Closed instance of `loadPosts_skips_and_maps`: a directory with one valid
post file, one dotfile and one subdirectory yields exactly one post. -/
theorem loadPosts_skips_and_maps_witness :
    (loadPosts
        (fun _ => Except.ok ⟨[("title", MetaVal.str "t"),
          ("date", MetaVal.date ⟨2020, 1, 5⟩)], "c"⟩)
        id (fun s => Except.error s)
        [⟨"a.md", true, "x"⟩, ⟨".hidden", true, "x"⟩, ⟨"sub", false, "x"⟩]
      = (List.filter keepEntry
          [⟨"a.md", true, "x"⟩, ⟨".hidden", true, "x"⟩, ⟨"sub", false, "x"⟩]).mapM
          (fun e => loadPost
            (fun _ => Except.ok ⟨[("title", MetaVal.str "t"),
              ("date", MetaVal.date ⟨2020, 1, 5⟩)], "c"⟩)
            id (fun s => Except.error s) e.text)) ∧
    ([⟨"t", none, ⟨2020, 1, 5⟩, restoreQuotes (id "c")⟩] : List Post).length
      = (List.filter keepEntry
          [⟨"a.md", true, "x"⟩, ⟨".hidden", true, "x"⟩,
            ⟨"sub", false, "x"⟩]).length :=
  ⟨(loadPosts_skips_and_maps _ id _ _ []).1,
    (loadPosts_skips_and_maps
      (fun _ => Except.ok ⟨[("title", MetaVal.str "t"),
        ("date", MetaVal.date ⟨2020, 1, 5⟩)], "c"⟩)
      id (fun s => Except.error s)
      [⟨"a.md", true, "x"⟩, ⟨".hidden", true, "x"⟩, ⟨"sub", false, "x"⟩]
      [⟨"t", none, ⟨2020, 1, 5⟩, restoreQuotes (id "c")⟩]).2 rfl⟩

/-- A successful `loadPosts` run requires every kept entry to load. -/
theorem loadPosts_ok_all (fm : String → Except String Frontmatter)
    (md : String → String) (iso : String → Except String Date)
    (entries : List DirEntry) (ps : List Post)
    (h : loadPosts fm md iso entries = Except.ok ps) :
    ∀ e ∈ entries, keepEntry e = true →
      ∃ p, loadPost fm md iso e.text = Except.ok p := by
  induction entries generalizing ps with
  | nil => intro e he; exact absurd he (List.not_mem_nil e)
  | cons x rest ih =>
    intro e he hk
    by_cases hx : keepEntry x
    · rw [loadPosts, if_pos hx] at h
      cases hlp : loadPost fm md iso x.text with
      | error err =>
        rw [hlp] at h
        exact absurd h (by simp [Bind.bind, Except.bind])
      | ok p =>
        rw [hlp] at h
        cases hrest : loadPosts fm md iso rest with
        | error err =>
          rw [hrest] at h
          exact absurd h (by simp [Bind.bind, Except.bind])
        | ok ps2 =>
          rcases List.mem_cons.mp he with rfl | hmem
          · exact ⟨p, hlp⟩
          · exact ih ps2 hrest e hmem hk
    · rw [loadPosts, if_neg hx] at h
      rcases List.mem_cons.mp he with rfl | hmem
      · exact absurd hk (by simp [hx])
      · exact ih ps h e hmem hk

/-- C4, counterexample: a file whose metadata lacks `title` but carries a
malformed `date` string makes the loader fail with the invalid-date
`ValueError`, not with the missing-field `KeyError`: line 176 processes
`date` before the `title` fetch inside the `Post(...)` call. -/
theorem missing_title_error_kind_cex :
    loadPost (fun _ => Except.ok ⟨[("date", MetaVal.str "nope")], ""⟩) id
        (fun s => Except.error s) "x"
      = Except.error (LoadError.valueError "nope") ∧
    (Except.error (LoadError.valueError "nope") : Except LoadError Post)
      ≠ Except.error (LoadError.keyError "title") ∧
    (Except.error (LoadError.valueError "nope") : Except LoadError Post)
      ≠ Except.error (LoadError.keyError "date") := by
  refine ⟨rfl, by simp, by simp⟩

/-- C4, amended: when a source file's metadata lacks `title` or lacks `date`,
the loader fails — with the missing-field `KeyError` except in the one case
where `title` is missing but `date` is present as a malformed string, where
the invalid-date `ValueError` wins because `date` is processed first — and the
whole build aborts: `loadPosts` returns no post list at all. -/
theorem loader_missing_field_aborts (fm : String → Except String Frontmatter)
    (md : String → String) (iso : String → Except String Date)
    (t : String) (raw : Frontmatter) (hfm : fm t = Except.ok raw)
    (hmiss : lookupMeta raw.meta "title" = none ∨
      lookupMeta raw.meta "date" = none) :
    (∃ err, loadPost fm md iso t = Except.error err) ∧
    ∀ (entries : List DirEntry) (e : DirEntry) (ps : List Post),
      e ∈ entries → keepEntry e = true → e.text = t →
      loadPosts fm md iso entries ≠ Except.ok ps := by
  have hfail : ∃ err, loadPost fm md iso t = Except.error err := by
    rcases hmiss with hT | hD
    · cases hd : lookupMeta raw.meta "date" with
      | none =>
        exact ⟨LoadError.keyError "date",
          by simp [loadPost, hfm, hd, Except.mapError, Bind.bind, Except.bind]⟩
      | some v =>
        cases v with
        | str s =>
          cases hiso : iso s with
          | error m =>
            exact ⟨LoadError.valueError m,
              by simp [loadPost, hfm, hd, hiso, Except.mapError, Bind.bind,
                Except.bind]⟩
          | ok d =>
            exact ⟨LoadError.keyError "title",
              by simp [loadPost, hfm, hd, hiso, hT, Except.mapError, Bind.bind,
                Except.bind]⟩
        | date d =>
          exact ⟨LoadError.keyError "title",
            by simp [loadPost, hfm, hd, hT, Except.mapError, Bind.bind,
              Except.bind]⟩
    · exact ⟨LoadError.keyError "date",
        by simp [loadPost, hfm, hD, Except.mapError, Bind.bind, Except.bind]⟩
  refine ⟨hfail, fun entries e ps hmem hk ht hok => ?_⟩
  obtain ⟨p, hp⟩ := loadPosts_ok_all fm md iso entries ps hok e hmem hk
  obtain ⟨err, herr⟩ := hfail
  rw [ht, herr] at hp
  cases hp

/-- Closed instance of `loader_missing_field_aborts`. -/
theorem loader_missing_field_aborts_witness :
    (∃ err,
      loadPost (fun _ => Except.ok ⟨[("date", MetaVal.date ⟨2020, 1, 5⟩)], "c"⟩)
        id (fun s => Except.error s) "x" = Except.error err) ∧
    loadPosts (fun _ => Except.ok ⟨[("date", MetaVal.date ⟨2020, 1, 5⟩)], "c"⟩)
        id (fun s => Except.error s) [⟨"a", true, "x"⟩] ≠ Except.ok [] := by
  have h := loader_missing_field_aborts
    (fun _ => Except.ok ⟨[("date", MetaVal.date ⟨2020, 1, 5⟩)], "c"⟩)
    id (fun s => Except.error s) "x"
    ⟨[("date", MetaVal.date ⟨2020, 1, 5⟩)], "c"⟩ rfl (Or.inl (by decide))
  exact ⟨h.1, h.2 [⟨"a", true, "x"⟩] ⟨"a", true, "x"⟩ [] (by simp) (by decide) rfl⟩

/-- C10: the `html` field of every successfully loaded post contains no
occurrence of `&quot;`: the fix-up at line 185 replaces every occurrence in
the converted body, whatever the markdown collaborator produced. -/
theorem loaded_html_no_quot_entity (fm : String → Except String Frontmatter)
    (md : String → String) (iso : String → Except String Date)
    (t : String) (p : Post) (h : loadPost fm md iso t = Except.ok p) :
    seqHas quotEnt p.html.data = false := by
  cases hfm : fm t with
  | error m =>
    rw [loadPost] at h
    rw [hfm] at h
    exact absurd h (by simp [Except.mapError, Bind.bind, Except.bind])
  | ok raw =>
    rw [loadPost] at h
    rw [hfm] at h
    simp only [Except.mapError, Bind.bind, Except.bind] at h
    have hhtml : p.html = restoreQuotes (md raw.content) := by
      cases hdate : lookupMeta raw.meta "date" with
      | none => simp only [hdate] at h; cases h
      | some v =>
        simp only [hdate] at h
        cases v with
        | str s =>
          cases hiso : iso s with
          | error m => simp only [hiso] at h; cases h
          | ok d =>
            simp only [hiso] at h
            cases htitle : lookupMeta raw.meta "title" with
            | none => simp only [htitle] at h; cases h
            | some w =>
              simp only [htitle] at h
              injection h with h2
              rw [← h2]
        | date d =>
          cases htitle : lookupMeta raw.meta "title" with
          | none => simp only [htitle] at h; cases h
          | some w =>
            simp only [htitle] at h
            injection h with h2
            rw [← h2]
    rw [hhtml]
    exact seqHas_quotEnt_restoreQuotesL _

/-- Closed instance of `loaded_html_no_quot_entity`, for a body in which the
markdown collaborator produced the entity `&quot;`. -/
theorem loaded_html_no_quot_entity_witness :
    seqHas quotEnt
      (Post.html ⟨"t", none, ⟨2020, 1, 5⟩,
        restoreQuotes (id "a&quot;b")⟩).data = false :=
  loaded_html_no_quot_entity
    (fun _ => Except.ok ⟨[("title", MetaVal.str "t"),
      ("date", MetaVal.date ⟨2020, 1, 5⟩)], "a&quot;b"⟩)
    id (fun s => Except.error s) "x"
    ⟨"t", none, ⟨2020, 1, 5⟩, restoreQuotes (id "a&quot;b")⟩ rfl

/-! ## Filesystem model and site builder (lines 164, 190-207 of `build.py`)

Paths are component lists (`os.path.join` is list append).  The state is the
set of existing directories plus the written files.  `shutil.rmtree` fails
with `FileNotFoundError` when the tree does not exist; `os.makedirs` creates
the missing ancestors and fails with `FileExistsError` when the full path
already exists and `exist_ok=False`; `open(..., "w")` overwrites. -/

abbrev Path := List String

structure FS where
  dirs : List Path
  files : List (Path × String)
deriving DecidableEq, Repr

inductive OSError
  | fileNotFound (p : Path)
  | fileExists (p : Path)
deriving DecidableEq, Repr

def rmtree (fs : FS) (path : Path) : Except OSError FS :=
  if path ∈ fs.dirs then
    Except.ok ⟨fs.dirs.filter (fun d => !(seqStarts path d)),
      fs.files.filter (fun f => !(seqStarts path f.1))⟩
  else Except.error (OSError.fileNotFound path)

/-- The non-empty ancestor prefixes of a path, shortest first. -/
def ancestors (p : Path) : List Path :=
  (List.range p.length).map (fun i => p.take (i + 1))

def makedirs (fs : FS) (path : Path) (existOk : Bool) : Except OSError FS :=
  if path ∈ fs.dirs then
    if existOk then Except.ok fs else Except.error (OSError.fileExists path)
  else
    Except.ok ⟨(ancestors path).filter (fun d => !(decide (d ∈ fs.dirs)))
      ++ fs.dirs, fs.files⟩

def writeFile (fs : FS) (path : Path) (content : String) : FS :=
  ⟨fs.dirs, (path, content) :: fs.files.filter (fun f => !(decide (f.1 = path)))⟩

def readFile (fs : FS) (path : Path) : Option String :=
  (fs.files.find? (fun f => decide (f.1 = path))).map (fun f => f.2)

/-- `shutil.copytree(src, dst)`: fails if `dst` exists, else copies every
directory and file under `src` to the corresponding path under `dst`. -/
def copytree (fs : FS) (src dst : Path) : Except OSError FS :=
  if dst ∈ fs.dirs then Except.error (OSError.fileExists dst)
  else
    Except.ok ⟨(fs.dirs.filter (fun d => seqStarts src d)).map
        (fun d => dst ++ d.drop src.length) ++ fs.dirs,
      (fs.files.filter (fun f => seqStarts src f.1)).map
        (fun f => (dst ++ f.1.drop src.length, f.2)) ++ fs.files⟩

/-- Lines 192-193: `shutil.rmtree("build")` — unconditionally — then
`os.makedirs(os.path.join("build", "posts"), exist_ok=True)`. -/
def resetOutput (fs : FS) : Except OSError FS := do
  let fs1 ← rmtree fs ["build"]
  makedirs fs1 ["build", "posts"] true

/-- The per-post output loop (lines 199-204): for each post, create
`build/posts/{slug}` with `exist_ok=False`, then write the rendered page into
`index.html` inside it.  The pair returns the filesystem reached so far plus
the error that stopped the loop, if any. -/
def writePosts (styles : String) (tg sl : String → String) :
    List Post → FS → FS × Option OSError
  | [], fs => (fs, none)
  | p :: ps, fs =>
    match makedirs fs ["build", "posts", Post.slug sl p] false with
    | Except.error e => (fs, some e)
    | Except.ok fs1 =>
      writePosts styles tg sl ps
        (writeFile fs1 ["build", "posts", Post.slug sl p, "index.html"]
          (postPage styles tg p))

inductive BuildError
  | load (e : LoadError)
  | os (e : OSError)
deriving DecidableEq, Repr

/-- The whole module-level script (lines 164-207): load, sort, reset the
output tree, write the home page, write each post page, copy static
assets. -/
def buildSite (styles : String) (tg sl : String → String)
    (fm : String → Except String Frontmatter) (md : String → String)
    (iso : String → Except String Date)
    (entries : List DirEntry) (fs0 : FS) : FS × Option BuildError :=
  match loadPosts fm md iso entries with
  | Except.error e => (fs0, some (BuildError.load e))
  | Except.ok loaded =>
    let posts := sortPosts loaded
    match resetOutput fs0 with
    | Except.error e => (fs0, some (BuildError.os e))
    | Except.ok fs1 =>
      let fs2 := writeFile fs1 ["build", "index.html"]
        (homePage styles tg sl posts)
      match writePosts styles tg sl posts fs2 with
      | (fs3, some e) => (fs3, some (BuildError.os e))
      | (fs3, none) =>
        if ["static"] ∈ fs3.dirs then
          match copytree fs3 ["static"] ["build", "static"] with
          | Except.error e => (fs3, some (BuildError.os e))
          | Except.ok fs4 => (fs4, none)
        else (fs3, none)

/-- C5, counterexample: line 192 calls `shutil.rmtree("build")`
unconditionally, so a missing output directory is NOT tolerated: the reset
step — and with it the whole build — aborts with `FileNotFoundError` instead
of proceeding normally. -/
theorem output_reset_missing_cex :
    resetOutput ⟨[], []⟩ = Except.error (OSError.fileNotFound ["build"]) ∧
    (buildSite "" id id (fun s => Except.error s) id (fun s => Except.error s)
        [] ⟨[], []⟩).2
      = some (BuildError.os (OSError.fileNotFound ["build"])) := by
  constructor
  · rfl
  · simp [buildSite, loadPosts, sortPosts, List.mergeSort_nil, resetOutput,
      rmtree, Bind.bind, Except.bind]

/-- C5, amended: when the output directory exists the build destroys it
recursively and recreates it together with the nested `posts/` subdirectory;
when it does not exist, `shutil.rmtree` (called unconditionally at line 192)
raises `FileNotFoundError` and the build aborts. -/
theorem output_reset_behavior (fs : FS) :
    (["build"] ∈ fs.dirs →
      ∃ fs2, resetOutput fs = Except.ok fs2 ∧
        ["build"] ∈ fs2.dirs ∧ ["build", "posts"] ∈ fs2.dirs ∧
        (∀ q, seqStarts ["build"] q = true → readFile fs2 q = none) ∧
        (∀ d, d ∈ fs2.dirs → seqStarts ["build"] d = true →
          d = ["build"] ∨ d = ["build", "posts"])) ∧
    (["build"] ∉ fs.dirs →
      resetOutput fs = Except.error (OSError.fileNotFound ["build"])) := by
  constructor
  · intro hmem
    have hrm : rmtree fs ["build"]
        = Except.ok ⟨fs.dirs.filter (fun d => !(seqStarts ["build"] d)),
          fs.files.filter (fun f => !(seqStarts ["build"] f.1))⟩ := by
      simp [rmtree, hmem]
    have hnm1 : ["build"] ∉ fs.dirs.filter (fun d => !(seqStarts ["build"] d)) := by
      intro hx
      have := (List.mem_filter.mp hx).2
      simp [seqStarts, seqStarts_nil] at this
    have hnm2 : ["build", "posts"]
        ∉ fs.dirs.filter (fun d => !(seqStarts ["build"] d)) := by
      intro hx
      have := (List.mem_filter.mp hx).2
      simp [seqStarts, seqStarts_nil] at this
    have hanc : ancestors ["build", "posts"]
        = [["build"], ["build", "posts"]] := by decide
    have hmk : makedirs
        ⟨fs.dirs.filter (fun d => !(seqStarts ["build"] d)),
          fs.files.filter (fun f => !(seqStarts ["build"] f.1))⟩
        ["build", "posts"] true
        = Except.ok ⟨["build"] :: ["build", "posts"]
            :: fs.dirs.filter (fun d => !(seqStarts ["build"] d)),
          fs.files.filter (fun f => !(seqStarts ["build"] f.1))⟩ := by
      rw [makedirs, if_neg hnm2, hanc]
      simp [List.filter, hnm1, hnm2]
    refine ⟨⟨["build"] :: ["build", "posts"]
        :: fs.dirs.filter (fun d => !(seqStarts ["build"] d)),
      fs.files.filter (fun f => !(seqStarts ["build"] f.1))⟩,
      ?_, ?_, ?_, ?_, ?_⟩
    · show (rmtree fs ["build"] >>= fun fs1 =>
        makedirs fs1 ["build", "posts"] true) = _
      rw [hrm]
      show makedirs _ ["build", "posts"] true = _
      rw [hmk]
    · exact List.mem_cons_self _ _
    · exact List.mem_cons_of_mem _ (List.mem_cons_self _ _)
    · intro q hq
      rw [readFile]
      rw [Option.map_eq_none']
      rw [List.find?_eq_none]
      intro f hf
      have h2 := (List.mem_filter.mp hf).2
      intro hpred
      have : f.1 = q := of_decide_eq_true hpred
      rw [this] at h2
      rw [hq] at h2
      cases h2
    · intro d hd hstart
      rcases List.mem_cons.mp hd with rfl | hd2
      · exact Or.inl rfl
      rcases List.mem_cons.mp hd2 with rfl | hd3
      · exact Or.inr rfl
      have h2 := (List.mem_filter.mp hd3).2
      rw [hstart] at h2
      cases h2
  · intro hnm
    show (rmtree fs ["build"] >>= fun fs1 =>
      makedirs fs1 ["build", "posts"] true) = _
    rw [rmtree, if_neg hnm]
    rfl

/-- Closed instance of `output_reset_behavior`: a filesystem holding the
output directory and one stale file inside it. -/
theorem output_reset_behavior_witness :
    ∃ fs2, resetOutput ⟨[["build"]], [(["build", "stale"], "old")]⟩
        = Except.ok fs2 ∧
      ["build"] ∈ fs2.dirs ∧ ["build", "posts"] ∈ fs2.dirs ∧
      (∀ q, seqStarts ["build"] q = true → readFile fs2 q = none) ∧
      (∀ d, d ∈ fs2.dirs → seqStarts ["build"] d = true →
        d = ["build"] ∨ d = ["build", "posts"]) :=
  (output_reset_behavior ⟨[["build"]], [(["build", "stale"], "old")]⟩).1
    (List.mem_cons_self _ _)

/-! ## C1: duplicate slugs make the post-writing loop fail -/

theorem makedirs_error_inv {fs : FS} {p : Path} {b : Bool} {e : OSError}
    (h : makedirs fs p b = Except.error e) : e = OSError.fileExists p := by
  rw [makedirs] at h
  split at h
  · split at h
    · cases h
    · cases h; rfl
  · cases h

theorem makedirs_mem_preserved {fs fs2 : FS} {p : Path} {b : Bool}
    (h : makedirs fs p b = Except.ok fs2) {d : Path} (hd : d ∈ fs.dirs) :
    d ∈ fs2.dirs := by
  rw [makedirs] at h
  split at h
  · split at h
    · cases h; exact hd
    · cases h
  · cases h
    exact List.mem_append_right _ hd

theorem makedirs_files_eq {fs fs2 : FS} {p : Path} {b : Bool}
    (h : makedirs fs p b = Except.ok fs2) : fs2.files = fs.files := by
  rw [makedirs] at h
  split at h
  · split at h
    · cases h; rfl
    · cases h
  · cases h; rfl

theorem makedirs_mem_self {fs fs2 : FS} {p : Path} {b : Bool} (hp : p ≠ [])
    (h : makedirs fs p b = Except.ok fs2) : p ∈ fs2.dirs := by
  rw [makedirs] at h
  split at h
  case isTrue hmem =>
    split at h
    · cases h; exact hmem
    · cases h
  case isFalse hmem =>
    cases h
    apply List.mem_append_left
    rw [List.mem_filter]
    refine ⟨?_, by simp [hmem]⟩
    rw [ancestors]
    apply List.mem_map.mpr
    refine ⟨p.length - 1, List.mem_range.mpr ?_, ?_⟩
    · have := List.length_pos.mpr hp
      omega
    · have := List.length_pos.mpr hp
      rw [Nat.sub_add_cancel this]
      exact List.take_length p

/-- Any post whose slug directory already exists somewhere later in the list
makes the loop stop with a `FileExistsError`. -/
theorem writePosts_failure (styles : String) (tg sl : String → String)
    (rest : List Post) (fs : FS)
    (h : ∃ q ∈ rest, ["build", "posts", Post.slug sl q] ∈ fs.dirs) :
    ∃ pth, (writePosts styles tg sl rest fs).2
      = some (OSError.fileExists pth) := by
  induction rest generalizing fs with
  | nil =>
    obtain ⟨q, hq, _⟩ := h
    exact absurd hq (List.not_mem_nil q)
  | cons p rest ih =>
    obtain ⟨q, hq, hmem⟩ := h
    simp only [writePosts]
    cases hmk : makedirs fs ["build", "posts", Post.slug sl p] false with
    | error e =>
      refine ⟨["build", "posts", Post.slug sl p], ?_⟩
      rw [makedirs_error_inv hmk]
    | ok fs1 =>
      rcases List.mem_cons.mp hq with rfl | hq2
      · exfalso
        rw [makedirs, if_pos hmem] at hmk
        simp at hmk
      · exact ih _ ⟨q, hq2, makedirs_mem_preserved hmk hmem⟩

theorem find?_filter_keep {α : Type} (pr g : α → Bool) (l : List α)
    (himp : ∀ x, pr x = true → g x = true) :
    List.find? pr (l.filter g) = List.find? pr l := by
  induction l with
  | nil => rfl
  | cons x t ih =>
    rw [List.filter_cons]
    by_cases hx : pr x = true
    · rw [if_pos (himp x hx)]
      rw [List.find?_cons_of_pos _ hx, List.find?_cons_of_pos _ hx]
    · have hx2 : pr x = false := by
        cases hpx : pr x
        · rfl
        · exact absurd hpx hx
      split
      · rw [List.find?_cons_of_neg _ (by simp [hx2]),
          List.find?_cons_of_neg _ (by simp [hx2]), ih]
      · rw [List.find?_cons_of_neg _ (by simp [hx2]), ih]

theorem readFile_writeFile_ne (fs : FS) (p q : Path) (c : String)
    (h : q ≠ p) : readFile (writeFile fs p c) q = readFile fs q := by
  rw [readFile, readFile, writeFile]
  show ((((p, c) :: fs.files.filter fun f => !(decide (f.1 = p))).find?
    fun f => decide (f.1 = q)).map fun f => f.2) = _
  rw [List.find?_cons_of_neg _
    (by simp only [decide_eq_true_eq]; exact Ne.symm h)]
  rw [find?_filter_keep _ _ _ ?imp]
  case imp =>
    intro f hf
    have : f.1 = q := of_decide_eq_true hf
    simp [this, h]

/-- Existing per-directory `index.html` files are never overwritten by the
loop: a later post with the same slug fails at `makedirs` before its write. -/
theorem writePosts_preserves_file (styles : String) (tg sl : String → String)
    (ps : List Post) (fs : FS) (d : Path) (c : String) (hd : d ∈ fs.dirs)
    (hf : readFile fs (d ++ ["index.html"]) = some c) :
    readFile (writePosts styles tg sl ps fs).1 (d ++ ["index.html"])
      = some c := by
  induction ps generalizing fs with
  | nil => exact hf
  | cons p rest ih =>
    simp only [writePosts]
    cases hmk : makedirs fs ["build", "posts", Post.slug sl p] false with
    | error e => exact hf
    | ok fs1 =>
      have hdirnew : ["build", "posts", Post.slug sl p] ∉ fs.dirs := by
        intro hcon
        rw [makedirs, if_pos hcon] at hmk
        cases hmk
      have hne : d ++ ["index.html"]
          ≠ ["build", "posts", Post.slug sl p, "index.html"] := by
        intro heq
        have heq2 : d ++ ["index.html"]
            = ["build", "posts", Post.slug sl p] ++ ["index.html"] := heq
        exact hdirnew (List.append_cancel_right heq2 ▸ hd)
      exact ih _ (makedirs_mem_preserved hmk hd)
        (by rw [readFile_writeFile_ne _ _ _ _ hne]
            rw [readFile, makedirs_files_eq hmk, ← readFile]
            exact hf)

/-- C1: if two posts anywhere in the list have titles with the same slug, the
per-post output loop fails with the `FileExistsError` raised by
`os.makedirs(..., exist_ok=False)` (the error the spec's taxonomy names
`DuplicateSlugError`) instead of silently overwriting: no already-written
post page is ever replaced by a later post's page. -/
theorem duplicate_slug_build_fails (styles : String) (tg sl : String → String)
    (l1 l2 l3 : List Post) (a b : Post) (fs : FS)
    (hslug : sl a.title = sl b.title) :
    (∃ pth, (writePosts styles tg sl (l1 ++ a :: l2 ++ b :: l3) fs).2
        = some (OSError.fileExists pth)) ∧
    (∀ d c, d ∈ fs.dirs → readFile fs (d ++ ["index.html"]) = some c →
      readFile (writePosts styles tg sl (l1 ++ a :: l2 ++ b :: l3) fs).1
        (d ++ ["index.html"]) = some c) := by
  constructor
  · induction l1 generalizing fs with
    | nil =>
      simp only [List.nil_append, writePosts]
      cases hmk : makedirs fs ["build", "posts", Post.slug sl a] false with
      | error e =>
        refine ⟨["build", "posts", Post.slug sl a], ?_⟩
        rw [makedirs_error_inv hmk]
      | ok fs1 =>
        apply writePosts_failure
        refine ⟨b, List.mem_append_right _ (List.mem_cons_self _ _), ?_⟩
        have hsb : Post.slug sl b = Post.slug sl a := by
          rw [Post.slug, Post.slug, hslug]
        rw [hsb]
        show ["build", "posts", Post.slug sl a] ∈ fs1.dirs
        exact makedirs_mem_self (by simp) hmk
    | cons x l1x ih =>
      simp only [List.cons_append, writePosts]
      cases hmk : makedirs fs ["build", "posts", Post.slug sl x] false with
      | error e =>
        refine ⟨["build", "posts", Post.slug sl x], ?_⟩
        rw [makedirs_error_inv hmk]
      | ok fs1 =>
        exact ih _
  · intro d c hd hf
    exact writePosts_preserves_file styles tg sl _ fs d c hd hf

/-- Closed instance of `duplicate_slug_build_fails`: two posts with the same
title under a constant slug function. -/
theorem duplicate_slug_build_fails_witness :
    (∃ pth,
      (writePosts "" id (fun _ => "s")
        [⟨"t", none, ⟨2020, 1, 5⟩, "h"⟩, ⟨"t", none, ⟨2020, 1, 5⟩, "h"⟩]
        ⟨[["build"], ["build", "posts"]], []⟩).2
      = some (OSError.fileExists pth)) ∧
    (∀ d c, d ∈ (FS.mk [["build"], ["build", "posts"]] []).dirs →
      readFile ⟨[["build"], ["build", "posts"]], []⟩ (d ++ ["index.html"])
        = some c →
      readFile
        (writePosts "" id (fun _ => "s")
          [⟨"t", none, ⟨2020, 1, 5⟩, "h"⟩, ⟨"t", none, ⟨2020, 1, 5⟩, "h"⟩]
          ⟨[["build"], ["build", "posts"]], []⟩).1
        (d ++ ["index.html"]) = some c) :=
  duplicate_slug_build_fails "" id (fun _ => "s") [] [] []
    ⟨"t", none, ⟨2020, 1, 5⟩, "h"⟩ ⟨"t", none, ⟨2020, 1, 5⟩, "h"⟩
    ⟨[["build"], ["build", "posts"]], []⟩ rfl

end Blog
